import Mathlib

/-
Formal model of the "Camila" WhatsApp course-catalog assistant
(src/app.js and its later variant src/unnamed/part_000 of the
PabloBorneman/cami-bot repository).

The embedding follows the later variant (part_000), which supersedes
app.js by adding the states "ultimos_cupos" and "cupo_completo"; where
the two files coincide the definitions model both.  JavaScript strings
are modelled as Lean String (one Char per UTF-16 unit of the catalog
repertoire), numbers arising from Jaccard scores as exact rationals
(mkRat inter uni is the rational value of the float division
inter / uni), and the asynchronous message handler as a pure step
function taking the backend outcome as an explicit argument.
Unicode-dependent primitives (toLowerCase, NFD stripping, the
letter/number classes) are modelled on the Latin repertoire that the
catalog and the regular expressions of the source use.
-/

namespace CamiBot

/-! ### JavaScript string primitives -/

/-- Whitespace for the regex class backslash-s and String.prototype.trim,
modelled on the characters that occur in practice. -/
def jsIsWs (c : Char) : Bool :=
  c == ' ' || c == '\t' || c == '\n' || c == '\r' ||
  c == '\u000B' || c == '\u000C' || c == '\u00A0' || c == '\uFEFF'

/-- One step of toLowerCase, modelled for ASCII plus the Spanish
uppercase accented letters. -/
def jsToLower (c : Char) : Char :=
  if 'A' ≤ c && c ≤ 'Z' then Char.ofNat (c.toNat + 32)
  else match c with
  | 'Á' => 'á' | 'É' => 'é' | 'Í' => 'í' | 'Ó' => 'ó' | 'Ú' => 'ú'
  | 'Ü' => 'ü' | 'Ñ' => 'ñ'
  | _ => c

/-- toLowerCase on a whole string. -/
def jsToLowerStr (s : String) : String := ⟨s.data.map jsToLower⟩

/-- normalize("NFD") followed by removing the combining marks
U+0300 - U+036F, modelled for the Spanish lowercase repertoire: a
composed accented letter decomposes into its base letter plus a mark,
and the mark is deleted. -/
def stripMark (c : Char) : Char :=
  match c with
  | 'á' => 'a' | 'é' => 'e' | 'í' => 'i' | 'ó' => 'o' | 'ú' => 'u'
  | 'ü' => 'u' | 'ñ' => 'n'
  | _ => c

/-- Membership in the regex class backslash-p(L), modelled as ASCII
letters plus the Latin-1 / Latin Extended letter blocks. -/
def isLetterP (c : Char) : Bool :=
  ('a' ≤ c && c ≤ 'z') || ('A' ≤ c && c ≤ 'Z') ||
  (0xC0 ≤ c.toNat && c.toNat ≤ 0x24F && c.toNat != 0xD7 && c.toNat != 0xF7)

/-- Membership in the regex class backslash-p(N), modelled as ASCII digits. -/
def isDigitP (c : Char) : Bool := '0' ≤ c && c ≤ '9'

/-- Replace every run of whitespace by a single space
(the .replace of backslash-s+ by " "). -/
def collapseRuns : List Char → List Char
  | [] => []
  | [c] => if jsIsWs c then [' '] else [c]
  | c1 :: c2 :: rest =>
    if jsIsWs c1 && jsIsWs c2 then collapseRuns (c2 :: rest)
    else (if jsIsWs c1 then ' ' else c1) :: collapseRuns (c2 :: rest)

/-- Strip whitespace from both ends (String.prototype.trim). -/
def trimWsEnds (l : List Char) : List Char :=
  ((l.dropWhile jsIsWs).reverse.dropWhile jsIsWs).reverse

/-- String.prototype.trim on a String. -/
def jsTrimStr (s : String) : String := ⟨trimWsEnds s.data⟩

/-- Auxiliary accumulator for split(" "): cur holds the current piece
reversed. -/
def splitOnSpaceAux : List Char → List Char → List String
  | cur, [] => [⟨cur.reverse⟩]
  | cur, c :: rest =>
    if c == ' ' then ⟨cur.reverse⟩ :: splitOnSpaceAux [] rest
    else splitOnSpaceAux (c :: cur) rest

/-- String.prototype.split(" "): split at every single space, keeping
empty pieces. -/
def splitOnSpace (s : String) : List String := splitOnSpaceAux [] s.data

/-- Pattern is an initial segment of the list (exact characters). -/
def leadsWith : List Char → List Char → Bool
  | [], _ => true
  | _ :: _, [] => false
  | p :: ps, c :: cs => p == c && leadsWith ps cs

/-- The list contains the pattern as a contiguous segment
(String.prototype.includes). -/
def hasSub : List Char → List Char → Bool
  | [], pat => leadsWith pat []
  | c :: rest, pat => leadsWith pat (c :: rest) || hasSub rest pat

/-- String.prototype.includes. -/
def strIncludes (s pat : String) : Bool := hasSub s.data pat.data

/-- ASCII lowercasing for case-insensitive regex matching. -/
def lcAscii (c : Char) : Char :=
  if 'A' ≤ c && c ≤ 'Z' then Char.ofNat (c.toNat + 32) else c

/-- Case-insensitive literal match: on success returns the rest of the
input after the pattern. -/
def matchCI : List Char → List Char → Option (List Char)
  | [], l => some l
  | _ :: _, [] => none
  | p :: ps, c :: cs => if lcAscii c == lcAscii p then matchCI ps cs else none

/-! ### normalize, sanitize, clamp (source part_000 lines 54-88) -/

/-- The source normalize: lowercase, NFD + strip marks, map every
character outside letters/numbers/whitespace to a space, collapse
whitespace, trim. -/
def normalizeStr (s : String) : String :=
  let lowered := s.data.map (fun c => stripMark (jsToLower c))
  let spaced := lowered.map
    (fun c => if isLetterP c || isDigitP c || jsIsWs c then c else ' ')
  ⟨trimWsEnds (collapseRuns spaced)⟩

/-- One character of the source sanitize.  The source regex also matches
backtick, asterisk and underscore, but its replacement map has no entry
for them, so the callback returns those characters unchanged; only the
angle brackets and braces are rewritten to HTML entities. -/
def sanitizeChar (c : Char) : List Char :=
  if c == '<' then "&lt;".data
  else if c == '>' then "&gt;".data
  else if c == '\x7b' then "&#123;".data
  else if c == '\x7d' then "&#125;".data
  else [c]

/-- The source sanitize: entity-replace, collapse whitespace, trim. -/
def sanitizeStr (s : String) : String :=
  ⟨trimWsEnds (collapseRuns (s.data.map sanitizeChar).flatten)⟩

/-- The source clamp with its only used bound 1200: truncate and append
a horizontal ellipsis. -/
def clamp (s : String) : String :=
  if s.length > 1200 then (s.take 1200) ++ "…" else s

/-! ### Token sets, Jaccard, matching (source part_000 lines 140-175) -/

/-- Token set of an already-normalized string: split on spaces, drop
empty pieces, collect uniques (the JS Set). -/
def tokensOfNormalized (q : String) : Finset String :=
  ((splitOnSpace q).filter (fun w => w ≠ "")).toFinset

/-- Token set of an arbitrary string after normalize. -/
def tokenSet (s : String) : Finset String := tokensOfNormalized (normalizeStr s)

/-- The source jaccard: 0 when either token set is empty, else
intersection size over union size (exact value of the float division). -/
def jaccard (a b : String) : ℚ :=
  let A := tokenSet a
  let B := tokenSet b
  if A.card = 0 ∨ B.card = 0 then 0
  else mkRat ((A ∩ B).card : Int) ((A ∪ B).card)

/-- The source isDirectTitleMention: substring containment after
normalize, else the dual Jaccard threshold (0.72, or intersection at
least 2 and 0.55). -/
def isDirectTitleMention (query title : String) : Bool :=
  let q := normalizeStr query
  let t := normalizeStr title
  if q = "" ∨ t = "" then false
  else if strIncludes q t then true
  else
    let qTok := tokensOfNormalized q
    let tTok := tokensOfNormalized t
    let inter := (qTok ∩ tTok).card
    let uni := (qTok ∪ tTok).card
    let j : ℚ := if uni = 0 then 0 else mkRat (inter : Int) uni
    if mkRat 72 100 ≤ j then true
    else if 2 ≤ inter ∧ mkRat 55 100 ≤ j then true
    else false

/-! ### Catalog model (source part_000 lines 101-197) -/

/-- The projection of a loaded course record used by the handler logic:
the other pickCourse fields are free text that the hard rules and the
candidate hints never inspect. -/
structure Course where
  id : Nat
  titulo : String
  formulario : String
  estado : String
deriving DecidableEq

/-- The eligible (exhibitable) states of part_000 line 158. -/
def ELIGIBLE_STATES : List String :=
  ["inscripcion_abierta", "proximo", "ultimos_cupos"]

/-- The source isEligible: an empty estado falls back to "proximo"
(JS falsiness), then lowercase and test membership. -/
def isEligible (c : Course) : Bool :=
  ELIGIBLE_STATES.contains
    (jsToLowerStr (if c.estado = "" then "proximo" else c.estado))

/-- A candidate hint entry: id, title and Jaccard score. -/
structure Candidate where
  id : Nat
  titulo : String
  score : ℚ
deriving DecidableEq

/-- Stable insertion into a descending-by-score list: the inserted
element, which comes later in the original order, passes over strictly
greater scores only. -/
def insertByScore (x : Candidate) : List Candidate → List Candidate
  | [] => [x]
  | y :: ys => if x.score < y.score then y :: insertByScore x ys else x :: y :: ys

/-- Stable descending sort by score, the behaviour of the stable JS
Array.sort with comparator (x, y) => y.score - x.score. -/
def sortByScoreDesc : List Candidate → List Candidate
  | [] => []
  | x :: xs => insertByScore x (sortByScoreDesc xs)

/-- The source topMatchesByTitle: score every course title against the
normalized query, sort descending, take the first k. -/
def topMatchesByTitle (courses : List Course) (query : String) (k : Nat) :
    List Candidate :=
  let q := normalizeStr query
  (sortByScoreDesc (courses.map
    (fun c => ⟨c.id, c.titulo, jaccard c.titulo q⟩))).take k

/-- The startup filter: only exhibitable courses reach the model. -/
def cursosExhibibles (cursos : List Course) : List Course :=
  cursos.filter isEligible

def MAX_CONTEXT_CHARS : Nat := 18000

/-- The list of courses serialized into contextoCursos.  serLen
abstracts JSON.stringify(list, null, 2).length; when the serialized
eligible list exceeds the budget the first 40 records are serialized
instead (part_000 lines 192-197). -/
def contextoCursosList (serLen : List Course → Nat) (cursos : List Course) :
    List Course :=
  let ex := cursosExhibibles cursos
  if serLen ex > MAX_CONTEXT_CHARS then ex.take 40 else ex

/-! ### The follow-up intent regex (part_000 line 444) -/

/-- A JS regex word character (the class backslash-w is ASCII only). -/
def isWordChar (c : Char) : Bool :=
  ('a' ≤ c && c ≤ 'z') || ('A' ≤ c && c ≤ 'Z') || ('0' ≤ c && c ≤ '9') || c == '_'

/-- Word boundary on the left of a match position. -/
def boundaryBefore : Option Char → Bool
  | none => true
  | some c => !isWordChar c

/-- Word boundary on the right of a match. -/
def boundaryAfter : List Char → Bool
  | [] => true
  | c :: _ => !isWordChar c

/-- A whole case-insensitive word starts here and ends at a boundary. -/
def wordAt (pat : List Char) (l : List Char) : Bool :=
  match matchCI pat l with
  | some rest => boundaryAfter rest
  | none => false

/-- Scan for a boundary-delimited occurrence of link, inscrib or
formulario, tracking the previous character. -/
def followUpAux : Option Char → List Char → Bool
  | _, [] => false
  | prev, c :: rest =>
    (boundaryBefore prev &&
      (wordAt "link".data (c :: rest) || wordAt "inscrib".data (c :: rest) ||
       wordAt "formulario".data (c :: rest)))
    || followUpAux (some c) rest

/-- The source followUpRE test: word-bounded link, inscrib or
formulario, case-insensitive. -/
def followUpRE (s : String) : Bool := followUpAux none s.data

/-! ### Link and title capture (part_000 lines 480-487) -/

/-- Consume a nonempty whitespace run (the regex backslash-s+, greedy). -/
def ws1 : List Char → Option (List Char)
  | [] => none
  | c :: rest => if jsIsWs c then some (rest.dropWhile jsIsWs) else none

/-- Scan to the first occurrence of the stop character; returns the
characters before it and the rest after it. -/
def scanUntil (stop : Char) : List Char → Option (List Char × List Char)
  | [] => none
  | c :: rest =>
    if c == stop then some ([], rest)
    else match scanUntil stop rest with
      | some (a, r) => some (c :: a, r)
      | none => none

/-- The lazy tail .*?> of the capture regexes: a greater-than sign
reachable without crossing a line terminator. -/
def lazyToGt : List Char → Bool
  | [] => false
  | c :: rest =>
    if c == '>' then true
    else if c == '\n' || c == '\r' then false
    else lazyToGt rest

/-- Attempt, anchored at the head of the list, of the Google-Forms
capture regex of the source (case-insensitive; the capture group is the
URL: scheme, docs.google.com/forms or forms.gle host, then at least one
character up to the closing double quote). -/
def formAnchorAt (l : List Char) : Option (List Char) :=
  match matchCI "<a".data l with
  | none => none
  | some r1 =>
    match ws1 r1 with
    | none => none
    | some r2 =>
      match matchCI "href=\"".data r2 with
      | none => none
      | some r3 =>
        let sl? : Option Nat :=
          match matchCI "https://".data r3 with
          | some _ => some 8
          | none => match matchCI "http://".data r3 with
            | some _ => some 7
            | none => none
        match sl? with
        | none => none
        | some sl =>
          let r4 := r3.drop sl
          let hl? : Option Nat :=
            match matchCI "docs.google.com/forms/".data r4 with
            | some _ => some 22
            | none => match matchCI "forms.gle/".data r4 with
              | some _ => some 10
              | none => none
          match hl? with
          | none => none
          | some hl =>
            match scanUntil '"' (r4.drop hl) with
            | none => none
            | some (path, r6) =>
              if path.isEmpty then none
              else if lazyToGt r6 then some (r3.take (sl + hl + path.length))
              else none

/-- Leftmost match of the Google-Forms capture regex (.match without g). -/
def findFirstAnchor : List Char → Option (List Char)
  | [] => none
  | c :: rest =>
    match formAnchorAt (c :: rest) with
    | some u => some u
    | none => findFirstAnchor rest

/-- Attempt, anchored at the head, of the strong-title capture regex
(case-insensitive; captures at least one character up to the closing
tag). -/
def strongAt (l : List Char) : Option (List Char) :=
  match matchCI "<strong>".data l with
  | none => none
  | some r =>
    match scanUntil '<' r with
    | none => none
    | some (txt, r2) =>
      if txt.isEmpty then none
      else match matchCI "/strong>".data r2 with
        | some _ => some txt
        | none => none

/-- Leftmost match of the strong-title capture regex. -/
def findFirstStrong : List Char → Option (List Char)
  | [] => none
  | c :: rest =>
    match strongAt (c :: rest) with
    | some t => some t
    | none => findFirstStrong rest

/-! ### The WhatsApp post-processing chain (part_000 lines 490-495) -/

/-- Length of the run of characters satisfying p at the head. -/
def runLen (p : Char → Bool) (l : List Char) : Nat := (l.takeWhile p).length

/-- Global regex replacement, with structural fuel (the input length
always suffices, because every match consumes at least one character):
matchAt, anchored at each position, returns the replacement together
with the total matched length (always at least one); after a match the
scan resumes past it, as the JS lastIndex does for the g flag. -/
def globalReplaceFuel (matchAt : List Char → Option (List Char × Nat)) :
    Nat → List Char → List Char
  | _, [] => []
  | 0, l => l
  | fuel + 1, c :: rest =>
    match matchAt (c :: rest) with
    | some (rep, n) => rep ++ globalReplaceFuel matchAt fuel (rest.drop (n - 1))
    | none => c :: globalReplaceFuel matchAt fuel rest

/-- Global regex replacement over a whole list. -/
def globalReplace (matchAt : List Char → Option (List Char × Nat))
    (l : List Char) : List Char :=
  globalReplaceFuel matchAt l.length l

/-- Tail of the date-debolding regex after the opening stars: k digits
(k = 2 then 1, the greedy then backtracked quantifier), whitespace,
"de" (case-insensitive), whitespace, letters, closing stars; returns
the length of the captured group. -/
def dateBoldTail (r : List Char) (k : Nat) : Option Nat :=
  if (r.take k).length = k ∧ (r.take k).all isDigitP then
    let r2 := r.drop k
    let n1 := runLen jsIsWs r2
    if n1 = 0 then none
    else
      match matchCI "de".data (r2.drop n1) with
      | none => none
      | some r4 =>
        let n2 := runLen jsIsWs r4
        if n2 = 0 then none
        else
          let r5 := r4.drop n2
          let nl := runLen isLetterP r5
          if nl = 0 then none
          else
            match matchCI "**".data (r5.drop nl) with
            | some _ => some (k + n1 + 2 + n2 + nl)
            | none => none
  else none

/-- First replace: double emphasis around a date-like group is removed,
keeping the group. -/
def dateBoldAt (l : List Char) : Option (List Char × Nat) :=
  match matchCI "**".data l with
  | none => none
  | some r =>
    match dateBoldTail r 2 with
    | some inner => some (r.take inner, 2 + inner + 2)
    | none =>
      match dateBoldTail r 1 with
      | some inner => some (r.take inner, 2 + inner + 2)
      | none => none

/-- The lazy inner part of the double-emphasis regex: the least positive
count of non-line-terminator characters followed by closing stars. -/
def lazyCloseStars : List Char → Option Nat
  | [] => none
  | c :: rest =>
    if c == '\n' || c == '\r' then none
    else match rest with
      | '*' :: '*' :: _ => some 1
      | _ => match lazyCloseStars rest with
        | some n => some (n + 1)
        | none => none

/-- Second replace: double emphasis becomes single emphasis. -/
def boldAt (l : List Char) : Option (List Char × Nat) :=
  match matchCI "**".data l with
  | none => none
  | some r =>
    match lazyCloseStars r with
    | some n => some ('*' :: r.take n ++ ['*'], 2 + n + 2)
    | none => none

/-- Third replace (case-sensitive): a markdown link becomes
"text: url"; the url part is a scheme then at least one character up to
the closing parenthesis. -/
def mdLinkAt (l : List Char) : Option (List Char × Nat) :=
  match l with
  | '[' :: r =>
    (match scanUntil ']' r with
     | some (txt, r2) =>
       if txt.isEmpty then none
       else
         (match r2 with
          | '(' :: r3 =>
            let sl? : Option Nat :=
              if leadsWith "https://".data r3 then some 8
              else if leadsWith "http://".data r3 then some 7
              else none
            (match sl? with
             | none => none
             | some sl =>
               match scanUntil ')' (r3.drop sl) with
               | none => none
               | some (tail, _) =>
                 if tail.isEmpty then none
                 else
                   let url := r3.take (sl + tail.length)
                   some (txt ++ ':' :: ' ' :: url,
                     1 + txt.length + 1 + 1 + url.length + 1))
          | _ => none)
     | none => none)
  | _ => none

/-- Fourth replace (case-insensitive): an anchor tag becomes
"text: url". -/
def anchorTagAt (l : List Char) : Option (List Char × Nat) :=
  match matchCI "<a".data l with
  | none => none
  | some r1 =>
    match ws1 r1 with
    | none => none
    | some r2 =>
      match matchCI "href=\"".data r2 with
      | none => none
      | some r3 =>
        match scanUntil '"' r3 with
        | none => none
        | some (url, r4) =>
          if url.isEmpty then none
          else
            match scanUntil '>' r4 with
            | none => none
            | some (_, r5) =>
              match scanUntil '<' r5 with
              | none => none
              | some (txt, r6) =>
                if txt.isEmpty then none
                else
                  match matchCI "/a>".data r6 with
                  | none => none
                  | some r7 => some (txt ++ ':' :: ' ' :: url, l.length - r7.length)

/-- Fifth replace: strip any remaining tag. -/
def tagAt (l : List Char) : Option (List Char × Nat) :=
  match l with
  | '<' :: r =>
    (match scanUntil '>' r with
     | some (inner, r2) =>
       if inner.isEmpty then none else some ([], l.length - r2.length)
     | none => none)
  | _ => none

/-- The post-processing chain in source order: de-bold dates, double to
single emphasis, markdown links and anchor tags to "text: url", strip
remaining tags. -/
def postRewrite (raw : String) : String :=
  let s1 := globalReplace dateBoldAt raw.data
  let s2 := globalReplace boldAt s1
  let s3 := globalReplace mdLinkAt s2
  let s4 := globalReplace anchorTagAt s3
  let s5 := globalReplace tagAt s4
  ⟨s5⟩

/-! ### Conversation state and the message handler (part_000 lines 333-507) -/

/-- The lastSuggestedCourse slot: title and registration form URL. -/
structure LastCourse where
  titulo : String
  formulario : String
deriving DecidableEq

/-- One history entry ({role, content}). -/
structure HistEntry where
  role : String
  content : String
deriving DecidableEq

/-- Per-chat short memory, created lazily as {history: [], lastSuggestedCourse: null}. -/
structure ConvState where
  history : List HistEntry
  lastSuggestedCourse : Option LastCourse
deriving DecidableEq

/-- The state of a fresh conversation. -/
def initialState : ConvState := ⟨[], none⟩

/-- JS Array.prototype.slice(-n): the at most n last elements. -/
def jsLastN (n : Nat) (l : List α) : List α := l.drop (l.length - n)

/-- The predicate of the server-side hard rule (part_000 lines 418-422):
a non-exhibitable state together with a direct title mention. -/
def closedMention (userMessage : String) (c : Course) : Bool :=
  (c.estado == "en_curso" || c.estado == "finalizado" || c.estado == "cupo_completo")
  && isDirectTitleMention userMessage c.titulo

/-- The fixed reply line of the hard rule for each closed state
(part_000 lines 425-433); it never consults the formulario field. -/
def closedLine (c : Course) : String :=
  if c.estado == "finalizado" then
    "El curso *" ++ c.titulo ++ "* ya finalizó, no podés inscribirte."
  else if c.estado == "en_curso" then
    "En el curso *" ++ c.titulo ++ "*, los cupos están completos y no admite nuevas inscripciones. ¿Querés más información del curso?"
  else
    "En el curso *" ++ c.titulo ++ "*, los cupos están completos y no admite nuevas inscripciones."

/-- The history entry pushed for the user turn. -/
def userEntry (userMessage : String) : HistEntry :=
  ⟨"user", clamp (sanitizeStr userMessage)⟩

/-- JS truthiness of state.lastSuggestedCourse?.formulario. -/
def hasFormLink (st : ConvState) : Bool :=
  match st.lastSuggestedCourse with
  | some lc => lc.formulario != ""
  | none => false

/-- The grounding payload handed to the generative backend when no hard
rule fires: serialized eligible courses, top-3 candidate hints over the
eligible subset only, trimmed history and the clamped sanitized user
turn (part_000 lines 455-468). -/
structure Payload where
  contexto : List Course
  hint : List Candidate
  shortHistory : List HistEntry
  userTurn : String
deriving DecidableEq

/-- Outcome of the hard-rule section of the handler. -/
inductive HardResult where
  | closed (linea : String) (st : ConvState)
  | quick (linea : String) (st : ConvState)
  | generative (p : Payload) (st : ConvState)
deriving DecidableEq

/-- Whether the hard-rule outcome proceeds to the generative backend. -/
def callsBackend : HardResult → Bool
  | HardResult.generative _ _ => true
  | _ => false

/-- Construction of the grounding payload. -/
def mkPayload (serLen : List Course → Nat) (cursos : List Course)
    (st : ConvState) (userMessage : String) : Payload :=
  { contexto := contextoCursosList serLen cursos,
    hint := topMatchesByTitle (cursosExhibibles cursos) userMessage 3,
    shortHistory := jsLastN 6 st.history,
    userTurn := clamp (sanitizeStr userMessage) }

/-- The hard-rule section of the handler (part_000 lines 417-468):
closed-state direct mention first, then the follow-up link shortcut,
else fall through to the generative path with the grounding payload. -/
def hardRules (serLen : List Course → Nat) (cursos : List Course)
    (st : ConvState) (userMessage : String) : HardResult :=
  match cursos.find? (closedMention userMessage) with
  | some c =>
    let linea := closedLine c
    HardResult.closed linea
      { history := jsLastN 6 (st.history ++
          [userEntry userMessage, ⟨"assistant", clamp linea⟩]),
        lastSuggestedCourse := st.lastSuggestedCourse }
  | none =>
    if followUpRE userMessage && hasFormLink st then
      match st.lastSuggestedCourse with
      | some lc =>
        let h1 := jsLastN 6 (st.history ++ [userEntry userMessage])
        let quick := "Formulario de inscripción: " ++ lc.formulario
        HardResult.quick quick
          { history := jsLastN 6 (h1 ++ [⟨"assistant", clamp quick⟩]),
            lastSuggestedCourse := st.lastSuggestedCourse }
      | none => HardResult.generative (mkPayload serLen cursos st userMessage) st
    else HardResult.generative (mkPayload serLen cursos st userMessage) st

/-- Outcome of the awaited generative call. -/
inductive BackendOutcome where
  | ok (raw : String)
  | err
deriving DecidableEq

/-- The fixed apology sent from the catch block. -/
def apologyLine : String := "Ocurrió un error al generar la respuesta."

/-- Title captured from the first strong tag of the raw output, trimmed,
empty when absent. -/
def extractedTitle (rawAi : String) : String :=
  match findFirstStrong rawAi.data with
  | some t => jsTrimStr ⟨t⟩
  | none => ""

/-- One full turn of the handler (part_000 lines 397-507) for a
processed inbound event (not self-originated, backend configured), with
the generative outcome passed explicitly: trim the body, run the hard
rules, and on the generative path capture the Google-Forms link before
any rewriting, post-process, and update the history; a backend error
yields the fixed apology and leaves the state untouched, because the
history pushes of the source sit after the awaited call inside try. -/
def stepTurn (serLen : List Course → Nat) (cursos : List Course)
    (st : ConvState) (body : String) (outcome : BackendOutcome) :
    Option String × ConvState :=
  let userMessage := jsTrimStr body
  if userMessage = "" then (none, st)
  else
    match hardRules serLen cursos st userMessage with
    | HardResult.closed linea st1 => (some linea, st1)
    | HardResult.quick linea st1 => (some linea, st1)
    | HardResult.generative _ st0 =>
      match outcome with
      | BackendOutcome.err => (some apologyLine, st0)
      | BackendOutcome.ok raw0 =>
        let rawAi := jsTrimStr raw0
        let newLast : Option LastCourse :=
          match findFirstAnchor rawAi.data with
          | some u => some ⟨extractedTitle rawAi, jsTrimStr ⟨u⟩⟩
          | none => st0.lastSuggestedCourse
        let aiResponse := postRewrite rawAi
        (some aiResponse,
         { history := jsLastN 6 (st0.history ++
             [userEntry userMessage, ⟨"assistant", clamp aiResponse⟩]),
           lastSuggestedCourse := newLast })

/-- Fold of stepTurn over a sequence of turns of one conversation. -/
def runTurns (serLen : List Course → Nat) (cursos : List Course) :
    ConvState → List (String × BackendOutcome) → ConvState
  | st, [] => st
  | st, t :: ts => runTurns serLen cursos (stepTurn serLen cursos st t.1 t.2).2 ts

/-- The history entries appended by one turn, by reply path: two for the
closed template, the link shortcut and a successful generative reply;
none for an ignored body or a backend error. -/
def stepEntries (serLen : List Course → Nat) (cursos : List Course)
    (st : ConvState) (body : String) (outcome : BackendOutcome) :
    List HistEntry :=
  let userMessage := jsTrimStr body
  if userMessage = "" then []
  else
    match hardRules serLen cursos st userMessage with
    | HardResult.closed linea _ =>
      [userEntry userMessage, ⟨"assistant", clamp linea⟩]
    | HardResult.quick linea _ =>
      [userEntry userMessage, ⟨"assistant", clamp linea⟩]
    | HardResult.generative _ _ =>
      match outcome with
      | BackendOutcome.err => []
      | BackendOutcome.ok raw0 =>
        [userEntry userMessage,
         ⟨"assistant", clamp (postRewrite (jsTrimStr raw0))⟩]

/-- The full log of history entries appended across a run. -/
def runLog (serLen : List Course → Nat) (cursos : List Course) :
    ConvState → List (String × BackendOutcome) → List HistEntry
  | _, [] => []
  | st, t :: ts =>
    stepEntries serLen cursos st t.1 t.2 ++
      runLog serLen cursos (stepTurn serLen cursos st t.1 t.2).2 ts

/-! ### Helper lemmas about slice(-n) -/

theorem length_jsLastN (n : Nat) (l : List α) :
    (jsLastN n l).length = l.length - (l.length - n) := by
  simp [jsLastN, List.length_drop]

theorem jsLastN_length_le (n : Nat) (l : List α) : (jsLastN n l).length ≤ n := by
  have h := length_jsLastN n l
  omega

theorem jsLastN_of_length_le {n : Nat} {l : List α} (h : l.length ≤ n) :
    jsLastN n l = l := by
  unfold jsLastN
  rw [Nat.sub_eq_zero_of_le h, List.drop_zero]

theorem jsLastN_suffix (n : Nat) (l : List α) : jsLastN n l <:+ l :=
  List.drop_suffix _ _

theorem suffix_eq_of_length_eq {s t l : List α} (hs : s <:+ l) (ht : t <:+ l)
    (h : s.length = t.length) : s = t := by
  obtain ⟨u, hu⟩ := hs
  obtain ⟨v, hv⟩ := ht
  have hu' := congrArg List.length hu
  have hv' := congrArg List.length hv
  simp only [List.length_append] at hu' hv'
  exact (List.append_inj (hu.trans hv.symm) (by omega)).2

theorem jsLastN_append_left (n : Nat) (xs ys : List α) :
    jsLastN n (jsLastN n xs ++ ys) = jsLastN n (xs ++ ys) := by
  apply suffix_eq_of_length_eq (l := xs ++ ys)
  · refine (jsLastN_suffix n _).trans ?_
    obtain ⟨u, hu⟩ := jsLastN_suffix n xs
    exact ⟨u, by rw [← List.append_assoc, hu]⟩
  · exact jsLastN_suffix n _
  · simp only [length_jsLastN, List.length_append]
    omega

/-! ### Helper lemmas about find? and the stable sort -/

theorem find?_eq_some_of_mem {p : α → Bool} :
    ∀ {l : List α}, (∃ a ∈ l, p a = true) →
      ∃ b, List.find? p l = some b ∧ p b = true
  | [], h => absurd h (by simp)
  | x :: l, h => by
    by_cases hx : p x = true
    · exact ⟨x, List.find?_cons_of_pos _ hx, hx⟩
    · obtain ⟨a, ha, hpa⟩ := h
      rcases List.mem_cons.mp ha with rfl | ha'
      · exact absurd hpa hx
      · rw [List.find?_cons_of_neg _ hx]
        exact find?_eq_some_of_mem ⟨a, ha', hpa⟩

theorem find?_first {p : α → Bool} :
    ∀ (l : List α) (k : Nat) (hk : k < l.length),
      p (l.get ⟨k, hk⟩) = true →
      (∀ j (hj : j < l.length), j < k → p (l.get ⟨j, hj⟩) = false) →
      List.find? p l = some (l.get ⟨k, hk⟩)
  | [], k, hk, _, _ => absurd hk (by simp)
  | x :: l, 0, _, hp, _ => by
    exact List.find?_cons_of_pos _ hp
  | x :: l, k + 1, hk, hp, hfirst => by
    have hx : p x = false := hfirst 0 (by simp) (Nat.succ_pos k)
    rw [List.find?_cons_of_neg _ (by simp [hx])]
    have hk' : k < l.length := by simpa using hk
    have hp' : p (l.get ⟨k, hk'⟩) = true := by simpa using hp
    have hfirst' : ∀ j (hj : j < l.length), j < k → p (l.get ⟨j, hj⟩) = false := by
      intro j hj hjk
      have h := hfirst (j + 1) (by simpa using Nat.succ_lt_succ hj) (by omega)
      simpa using h
    simpa using find?_first l k hk' hp' hfirst'

theorem mem_insertByScore {x y : Candidate} :
    ∀ {l : List Candidate}, y ∈ insertByScore x l ↔ y = x ∨ y ∈ l
  | [] => by simp [insertByScore]
  | z :: l => by
    simp only [insertByScore]
    split
    · rw [List.mem_cons, mem_insertByScore (l := l), List.mem_cons]
      tauto
    · simp only [List.mem_cons]

theorem mem_sortByScoreDesc {y : Candidate} :
    ∀ {l : List Candidate}, y ∈ sortByScoreDesc l ↔ y ∈ l
  | [] => by simp [sortByScoreDesc]
  | x :: l => by
    rw [sortByScoreDesc, mem_insertByScore, mem_sortByScoreDesc (l := l),
      List.mem_cons]

/-! ### Helper lemmas about sanitize -/

theorem mem_collapseRuns {c : Char} :
    ∀ {l : List Char}, c ∈ collapseRuns l → c = ' ' ∨ c ∈ l
  | [], h => by simp [collapseRuns] at h
  | [d], h => by
    simp only [collapseRuns] at h
    split at h <;> simp only [List.mem_singleton] at h <;> simp [h]
  | c1 :: c2 :: rest, h => by
    simp only [collapseRuns] at h
    split at h
    · rcases mem_collapseRuns h with h' | h'
      · exact Or.inl h'
      · exact Or.inr (List.mem_cons_of_mem _ h')
    · rcases List.mem_cons.mp h with rfl | h'
      · split
        · exact Or.inl rfl
        · exact Or.inr (List.mem_cons_self _ _)
      · rcases mem_collapseRuns h' with h'' | h''
        · exact Or.inl h''
        · exact Or.inr (List.mem_cons_of_mem _ h'')

theorem mem_trimWsEnds {c : Char} {l : List Char} (h : c ∈ trimWsEnds l) :
    c ∈ l := by
  unfold trimWsEnds at h
  rw [List.mem_reverse] at h
  have h1 := (List.dropWhile_sublist _).subset h
  rw [List.mem_reverse] at h1
  exact (List.dropWhile_sublist _).subset h1

theorem sanitizeChar_safe {c d : Char} (h : d ∈ sanitizeChar c) :
    d ≠ '<' ∧ d ≠ '>' ∧ d ≠ '\x7b' ∧ d ≠ '\x7d' := by
  by_cases e1 : c = '<'
  · subst e1
    rw [show sanitizeChar '<' = ['&', 'l', 't', ';'] from rfl] at h
    fin_cases h <;> decide
  · by_cases e2 : c = '>'
    · subst e2
      rw [show sanitizeChar '>' = ['&', 'g', 't', ';'] from rfl] at h
      fin_cases h <;> decide
    · by_cases e3 : c = '\x7b'
      · subst e3
        rw [show sanitizeChar '\x7b' = ['&', '#', '1', '2', '3', ';'] from rfl] at h
        fin_cases h <;> decide
      · by_cases e4 : c = '\x7d'
        · subst e4
          rw [show sanitizeChar '\x7d' = ['&', '#', '1', '2', '5', ';'] from rfl] at h
          fin_cases h <;> decide
        · rw [show sanitizeChar c = [c] from by
            simp [sanitizeChar, beq_iff_eq, e1, e2, e3, e4]] at h
          rw [List.mem_singleton] at h
          subst h
          exact ⟨e1, e2, e3, e4⟩

/-! ### Helper lemmas about the handler paths -/

theorem closedMention_title {q : String} {c : Course}
    (h : closedMention q c = true) : isDirectTitleMention q c.titulo = true := by
  unfold closedMention at h
  rw [Bool.and_eq_true] at h
  exact h.2

theorem isDirectTitleMention_ne_empty {q t : String}
    (h : isDirectTitleMention q t = true) : q ≠ "" := by
  intro hq
  subst hq
  rw [show isDirectTitleMention "" t = false from rfl] at h
  exact Bool.false_ne_true h

theorem stepTurn_of_closed {serLen : List Course → Nat} {cursos : List Course}
    {st : ConvState} {body : String} {c : Course}
    (hne : jsTrimStr body ≠ "")
    (hfind : List.find? (closedMention (jsTrimStr body)) cursos = some c)
    (outcome : BackendOutcome) :
    stepTurn serLen cursos st body outcome =
      (some (closedLine c),
       { history := jsLastN 6 (st.history ++
           [userEntry (jsTrimStr body), ⟨"assistant", clamp (closedLine c)⟩]),
         lastSuggestedCourse := st.lastSuggestedCourse }) := by
  unfold stepTurn hardRules
  rw [if_neg hne, hfind]

theorem hasFormLink_some {st : ConvState} {lc : LastCourse}
    (hlast : st.lastSuggestedCourse = some lc) (hform : lc.formulario ≠ "") :
    hasFormLink st = true := by
  unfold hasFormLink
  rw [hlast]
  exact bne_iff_ne.mpr hform

theorem stepTurn_of_quick {serLen : List Course → Nat} {cursos : List Course}
    {st : ConvState} {body : String} {lc : LastCourse}
    (hne : jsTrimStr body ≠ "")
    (hfind : List.find? (closedMention (jsTrimStr body)) cursos = none)
    (hfu : followUpRE (jsTrimStr body) = true)
    (hlast : st.lastSuggestedCourse = some lc)
    (hform : lc.formulario ≠ "")
    (outcome : BackendOutcome) :
    stepTurn serLen cursos st body outcome =
      (some ("Formulario de inscripción: " ++ lc.formulario),
       { history := jsLastN 6
           (jsLastN 6 (st.history ++ [userEntry (jsTrimStr body)]) ++
            [⟨"assistant", clamp ("Formulario de inscripción: " ++ lc.formulario)⟩]),
         lastSuggestedCourse := st.lastSuggestedCourse }) := by
  unfold stepTurn hardRules
  rw [if_neg hne, hfind, hfu, hasFormLink_some hlast hform, hlast]
  rfl

theorem stepTurn_of_gen_err {serLen : List Course → Nat} {cursos : List Course}
    {st : ConvState} {body : String}
    (hne : jsTrimStr body ≠ "")
    (hfind : List.find? (closedMention (jsTrimStr body)) cursos = none)
    (hnoquick : (followUpRE (jsTrimStr body) && hasFormLink st) = false) :
    stepTurn serLen cursos st body BackendOutcome.err = (some apologyLine, st) := by
  unfold stepTurn hardRules
  rw [if_neg hne, hfind, hnoquick]
  rfl

theorem stepTurn_of_gen_ok {serLen : List Course → Nat} {cursos : List Course}
    {st : ConvState} {body raw : String}
    (hne : jsTrimStr body ≠ "")
    (hfind : List.find? (closedMention (jsTrimStr body)) cursos = none)
    (hnoquick : (followUpRE (jsTrimStr body) && hasFormLink st) = false) :
    stepTurn serLen cursos st body (BackendOutcome.ok raw) =
      (some (postRewrite (jsTrimStr raw)),
       { history := jsLastN 6 (st.history ++
           [userEntry (jsTrimStr body),
            ⟨"assistant", clamp (postRewrite (jsTrimStr raw))⟩]),
         lastSuggestedCourse :=
           match findFirstAnchor (jsTrimStr raw).data with
           | some u => some ⟨extractedTitle (jsTrimStr raw), jsTrimStr ⟨u⟩⟩
           | none => st.lastSuggestedCourse }) := by
  unfold stepTurn hardRules
  rw [if_neg hne, hfind, hnoquick]
  rfl

theorem closedLine_head (c : Course) : (closedLine c).data.head? = some 'E' := by
  unfold closedLine
  split
  · simp only [String.data_append]
    rfl
  · split
    · simp only [String.data_append]
      rfl
    · simp only [String.data_append]
      rfl

theorem closedLine_ne_quick (c : Course) (s : String) :
    closedLine c ≠ "Formulario de inscripción: " ++ s := by
  intro h
  have h1 := closedLine_head c
  rw [h, String.data_append,
    show ("Formulario de inscripción: ").data = 'F' :: ("ormulario de inscripción: ").data from rfl]
    at h1
  exact absurd (Option.some.inj h1) (by decide)

/-! ### Claims -/

/-- C2 counterexample: an input containing an asterisk whose sanitized
form still contains it unescaped, refuting that sanitize neutralizes
backtick, asterisk and underscore. -/
theorem claim_C2_counterexample :
    sanitizeStr "a*b" = "a*b" ∧ (sanitizeStr "a*b").data.contains '*' = true := by
  decide

/-- C2 (amended): sanitize neutralizes the angle brackets and braces
(they become HTML entities, so no such character survives in any
sanitized field), but backtick, asterisk and underscore are matched by
the replacement regex with no map entry and pass through unchanged. -/
theorem claim_C2_sanitize_escapes (s : String) :
    ((sanitizeStr s).data.all
      (fun c => !(c == '<' || c == '>' || c == '\x7b' || c == '\x7d'))) = true := by
  rw [List.all_eq_true]
  intro c hc
  have hc' : c ∈ trimWsEnds (collapseRuns (s.data.map sanitizeChar).flatten) := hc
  have h1 := mem_trimWsEnds hc'
  rcases mem_collapseRuns h1 with rfl | h2
  · decide
  · rw [List.mem_flatten] at h2
    obtain ⟨piece, hp, hcp⟩ := h2
    rw [List.mem_map] at hp
    obtain ⟨d, _, rfl⟩ := hp
    have hs := sanitizeChar_safe hcp
    simp only [Bool.not_eq_eq_eq_not, Bool.not_true, Bool.or_eq_false_iff,
      beq_eq_false_iff_ne, ne_eq]
    exact ⟨⟨⟨hs.1, hs.2.1⟩, hs.2.2.1⟩, hs.2.2.2⟩

/-- C8 counterexample: a non-empty string whose self-similarity is 0,
not 1 (its normalized token set is empty). -/
theorem claim_C8_counterexample :
    ("!" : String) ≠ "" ∧ jaccard "!" "!" ≠ 1 := by decide

/-- C8 (amended): similarity is symmetric and lies in the unit interval
for all strings, and self-similarity is 1 for every string whose
normalized token set is non-empty (a non-empty string all of whose
characters are punctuation has an empty token set and self-similarity
0). -/
theorem claim_C8_similarity (a b : String) :
    jaccard a b = jaccard b a ∧ 0 ≤ jaccard a b ∧ jaccard a b ≤ 1 ∧
    (tokenSet a ≠ ∅ → jaccard a a = 1) := by
  have hunion : ∀ A B : Finset String, A.card ≠ 0 → (0 : ℚ) < ((A ∪ B).card : ℚ) := by
    intro A B hA
    have h1 : 0 < A.card := Nat.pos_of_ne_zero hA
    have h2 : A.card ≤ (A ∪ B).card :=
      Finset.card_le_card Finset.subset_union_left
    exact_mod_cast Nat.lt_of_lt_of_le h1 h2
  refine ⟨?_, ?_, ?_, ?_⟩
  · unfold jaccard
    by_cases h : (tokenSet a).card = 0 ∨ (tokenSet b).card = 0
    · rw [if_pos h, if_pos (Or.symm h)]
    · rw [if_neg h, if_neg (fun hc => h (Or.symm hc)),
        Finset.inter_comm (tokenSet a) (tokenSet b),
        Finset.union_comm (tokenSet a) (tokenSet b)]
  · unfold jaccard
    by_cases h : (tokenSet a).card = 0 ∨ (tokenSet b).card = 0
    · rw [if_pos h]
    · rw [if_neg h, Rat.mkRat_eq_div]
      exact div_nonneg (by positivity) (by positivity)
  · unfold jaccard
    by_cases h : (tokenSet a).card = 0 ∨ (tokenSet b).card = 0
    · rw [if_pos h]; norm_num
    · rw [if_neg h, Rat.mkRat_eq_div]
      rw [div_le_one (hunion _ _ (fun hc => h (Or.inl hc)))]
      exact_mod_cast Finset.card_le_card Finset.inter_subset_union
  · intro hne
    have hc : (tokenSet a).card ≠ 0 := fun h0 =>
      hne (Finset.card_eq_zero.mp h0)
    unfold jaccard
    rw [if_neg (by simp [hc]), Finset.inter_self, Finset.union_self,
      Rat.mkRat_eq_div]
    exact div_self (Nat.cast_ne_zero.mpr hc)

/-- C3: a processed message that directly mentions a closed-state course
title makes the handler reply with the fixed template of the first such
course, uses the formulario field of no course (the template depends
only on title and state), and never consults the generative backend
(the reply is the same for every backend outcome). -/
theorem claim_C3_closed_state_reply (serLen : List Course → Nat)
    (cursos : List Course) (st : ConvState) (body : String)
    (hmention : ∃ c ∈ cursos, closedMention (jsTrimStr body) c = true) :
    ∃ c, List.find? (closedMention (jsTrimStr body)) cursos = some c ∧
      closedMention (jsTrimStr body) c = true ∧
      (∀ f, closedLine { c with formulario := f } = closedLine c) ∧
      callsBackend (hardRules serLen cursos st (jsTrimStr body)) = false ∧
      ∀ outcome, stepTurn serLen cursos st body outcome =
        (some (closedLine c),
         { history := jsLastN 6 (st.history ++
             [userEntry (jsTrimStr body), ⟨"assistant", clamp (closedLine c)⟩]),
           lastSuggestedCourse := st.lastSuggestedCourse }) := by
  obtain ⟨b, hfind, hpb⟩ := find?_eq_some_of_mem hmention
  have hne := isDirectTitleMention_ne_empty (closedMention_title hpb)
  refine ⟨b, hfind, hpb, fun f => rfl, ?_, fun outcome => stepTurn_of_closed hne hfind outcome⟩
  unfold hardRules
  rw [hfind]
  rfl

/-- C3 witness: Scenario A, with the catalog holding the finalized
course Electricidad Domiciliaria, the exact templated reply comes back
regardless of the backend outcome. -/
theorem claim_C3_witness :
    (stepTurn (fun _ => 0) [⟨1, "Electricidad Domiciliaria", "", "finalizado"⟩]
      initialState "quiero el curso de electricidad domiciliaria"
      BackendOutcome.err).1
    = some "El curso *Electricidad Domiciliaria* ya finalizó, no podés inscribirte." := by
  obtain ⟨c, hfind, -, -, -, hstep⟩ :=
    claim_C3_closed_state_reply (fun _ => 0)
      [⟨1, "Electricidad Domiciliaria", "", "finalizado"⟩] initialState
      "quiero el curso de electricidad domiciliaria"
      ⟨⟨1, "Electricidad Domiciliaria", "", "finalizado"⟩, by decide, by decide⟩
  have hc : c = ⟨1, "Electricidad Domiciliaria", "", "finalizado"⟩ :=
    Option.some.inj (hfind.symm.trans (by decide))
  subst hc
  rw [hstep BackendOutcome.err]
  rfl

/-- C4: when a message both mentions a closed-state course and matches
the follow-up pattern with a stored registration URL, the closed-state
template fires, not the link shortcut: rule order in the handler gives
rule 1 precedence and suppresses the backend. -/
theorem claim_C4_precedence (serLen : List Course → Nat)
    (cursos : List Course) (st : ConvState) (body : String) (lc : LastCourse)
    (hmention : ∃ c ∈ cursos, closedMention (jsTrimStr body) c = true)
    (hfu : followUpRE (jsTrimStr body) = true)
    (hlast : st.lastSuggestedCourse = some lc)
    (hform : lc.formulario ≠ "") :
    ∃ c, List.find? (closedMention (jsTrimStr body)) cursos = some c ∧
      (∀ s, closedLine c ≠ "Formulario de inscripción: " ++ s) ∧
      callsBackend (hardRules serLen cursos st (jsTrimStr body)) = false ∧
      ∀ outcome, stepTurn serLen cursos st body outcome =
        (some (closedLine c),
         { history := jsLastN 6 (st.history ++
             [userEntry (jsTrimStr body), ⟨"assistant", clamp (closedLine c)⟩]),
           lastSuggestedCourse := st.lastSuggestedCourse }) := by
  obtain ⟨b, hfind, hpb⟩ := find?_eq_some_of_mem hmention
  have hne := isDirectTitleMention_ne_empty (closedMention_title hpb)
  refine ⟨b, hfind, closedLine_ne_quick b, ?_,
    fun outcome => stepTurn_of_closed hne hfind outcome⟩
  unfold hardRules
  rw [hfind]
  rfl

/-- C4 witness: a message that mentions the finalized course and
contains the word link, with a stored form URL: the closed template is
the reply, and the link-shortcut reply is not. -/
theorem claim_C4_witness :
    (stepTurn (fun _ => 0) [⟨1, "Electricidad Domiciliaria", "", "finalizado"⟩]
      ⟨[], some ⟨"Panadería", "https://forms.gle/xyz"⟩⟩
      "mandame el link del curso electricidad domiciliaria"
      BackendOutcome.err).1
    = some "El curso *Electricidad Domiciliaria* ya finalizó, no podés inscribirte." ∧
    (stepTurn (fun _ => 0) [⟨1, "Electricidad Domiciliaria", "", "finalizado"⟩]
      ⟨[], some ⟨"Panadería", "https://forms.gle/xyz"⟩⟩
      "mandame el link del curso electricidad domiciliaria"
      BackendOutcome.err).1
    ≠ some ("Formulario de inscripción: " ++ "https://forms.gle/xyz") := by
  obtain ⟨c, hfind, hnq, -, hstep⟩ :=
    claim_C4_precedence (fun _ => 0)
      [⟨1, "Electricidad Domiciliaria", "", "finalizado"⟩]
      ⟨[], some ⟨"Panadería", "https://forms.gle/xyz"⟩⟩
      "mandame el link del curso electricidad domiciliaria"
      ⟨"Panadería", "https://forms.gle/xyz"⟩
      ⟨⟨1, "Electricidad Domiciliaria", "", "finalizado"⟩, by decide, by decide⟩
      (by decide) rfl (by decide)
  have hc : c = ⟨1, "Electricidad Domiciliaria", "", "finalizado"⟩ :=
    Option.some.inj (hfind.symm.trans (by decide))
  subst hc
  rw [hstep BackendOutcome.err]
  refine ⟨rfl, ?_⟩
  intro h
  exact hnq "https://forms.gle/xyz" (Option.some.inj h)

/-- C5: with no closed-state mention, a message matching the follow-up
pattern while the memory holds a registration URL is answered from
memory alone: the reply is exactly the fixed line built from the stored
formulario, independent of catalog and backend outcome. -/
theorem claim_C5_followup_shortcut (serLen : List Course → Nat)
    (cursos : List Course) (st : ConvState) (body : String) (lc : LastCourse)
    (hne : jsTrimStr body ≠ "")
    (hfind : List.find? (closedMention (jsTrimStr body)) cursos = none)
    (hfu : followUpRE (jsTrimStr body) = true)
    (hlast : st.lastSuggestedCourse = some lc)
    (hform : lc.formulario ≠ "") :
    ∀ outcome, stepTurn serLen cursos st body outcome =
      (some ("Formulario de inscripción: " ++ lc.formulario),
       { history := jsLastN 6
           (jsLastN 6 (st.history ++ [userEntry (jsTrimStr body)]) ++
            [⟨"assistant", clamp ("Formulario de inscripción: " ++ lc.formulario)⟩]),
         lastSuggestedCourse := st.lastSuggestedCourse }) :=
  fun outcome => stepTurn_of_quick hne hfind hfu hlast hform outcome

/-- C5 witness: Scenario B, "mandame el link" with the stored Panadería
form yields exactly the fixed reply. -/
theorem claim_C5_witness :
    (stepTurn (fun _ => 0) [] ⟨[], some ⟨"Panadería", "https://forms.gle/xyz"⟩⟩
      "mandame el link" BackendOutcome.err).1
    = some "Formulario de inscripción: https://forms.gle/xyz" := by
  have h := claim_C5_followup_shortcut (fun _ => 0) []
    ⟨[], some ⟨"Panadería", "https://forms.gle/xyz"⟩⟩ "mandame el link"
    ⟨"Panadería", "https://forms.gle/xyz"⟩
    (by decide) rfl (by decide) rfl (by decide)
  rw [h BackendOutcome.err]
  rfl

/-- C7 counterexample: on a backend error the source records neither
turn, because both history pushes sit after the awaited call inside the
try block: with an empty prior history the user turn is absent
afterwards, refuting that the user turn is still recorded. -/
theorem claim_C7_counterexample :
    (stepTurn (fun _ => 0) [] initialState "hola" BackendOutcome.err).1
      = some "Ocurrió un error al generar la respuesta." ∧
    (stepTurn (fun _ => 0) [] initialState "hola" BackendOutcome.err).2.history
      = [] := by
  decide

/-- C7 (amended): when the generative call errors on a processed
message that no hard rule intercepted, the handler replies exactly the
fixed apology and the whole conversation state, history included, is
left unchanged: neither the user turn nor an assistant turn is
recorded. -/
theorem claim_C7_backend_error (serLen : List Course → Nat)
    (cursos : List Course) (st : ConvState) (body : String)
    (hne : jsTrimStr body ≠ "")
    (hfind : List.find? (closedMention (jsTrimStr body)) cursos = none)
    (hnoquick : (followUpRE (jsTrimStr body) && hasFormLink st) = false) :
    stepTurn serLen cursos st body BackendOutcome.err = (some apologyLine, st) :=
  stepTurn_of_gen_err hne hfind hnoquick

/-- C7 witness: the amended statement at a concrete message and fresh
state. -/
theorem claim_C7_witness :
    stepTurn (fun _ => 0) [] initialState "hola" BackendOutcome.err
      = (some apologyLine, initialState) :=
  claim_C7_backend_error (fun _ => 0) [] initialState "hola"
    (by decide) rfl rfl

/-- C10: when a message mentions several closed-state courses, the
templated reply is determined by the first matching course of the
linear scan over the catalog (the earliest in the original order),
deterministically. -/
theorem claim_C10_first_match (serLen : List Course → Nat)
    (cursos : List Course) (st : ConvState) (body : String)
    (k : Nat) (hk : k < cursos.length)
    (hp : closedMention (jsTrimStr body) (cursos.get ⟨k, hk⟩) = true)
    (hfirst : ∀ j (hj : j < cursos.length), j < k →
      closedMention (jsTrimStr body) (cursos.get ⟨j, hj⟩) = false) :
    List.find? (closedMention (jsTrimStr body)) cursos
      = some (cursos.get ⟨k, hk⟩) ∧
    ∀ outcome, stepTurn serLen cursos st body outcome =
      (some (closedLine (cursos.get ⟨k, hk⟩)),
       { history := jsLastN 6 (st.history ++
           [userEntry (jsTrimStr body),
            ⟨"assistant", clamp (closedLine (cursos.get ⟨k, hk⟩))⟩]),
         lastSuggestedCourse := st.lastSuggestedCourse }) := by
  have hfind := find?_first cursos k hk hp hfirst
  have hne := isDirectTitleMention_ne_empty (closedMention_title hp)
  exact ⟨hfind, fun outcome => stepTurn_of_closed hne hfind outcome⟩

/-- C10 witness: a message matching two distinct closed courses; the
reply is the template of the one that comes first in the catalog. -/
theorem claim_C10_witness :
    closedMention (jsTrimStr "soldadura basica avanzada")
      ⟨1, "Soldadura Basica", "", "finalizado"⟩ = true ∧
    closedMention (jsTrimStr "soldadura basica avanzada")
      ⟨2, "Soldadura Avanzada", "", "en_curso"⟩ = true ∧
    (stepTurn (fun _ => 0)
      [⟨1, "Soldadura Basica", "", "finalizado"⟩,
       ⟨2, "Soldadura Avanzada", "", "en_curso"⟩]
      initialState "soldadura basica avanzada" BackendOutcome.err).1
    = some "El curso *Soldadura Basica* ya finalizó, no podés inscribirte." := by
  refine ⟨by decide, by decide, ?_⟩
  have h := (claim_C10_first_match (fun _ => 0)
    [⟨1, "Soldadura Basica", "", "finalizado"⟩,
     ⟨2, "Soldadura Avanzada", "", "en_curso"⟩]
    initialState "soldadura basica avanzada" 0 (by decide) (by decide)
    (fun j _ hj0 => absurd hj0 (Nat.not_lt_zero j))).2 BackendOutcome.err
  rw [h]
  rfl

/-- C8 witness: the amended statement applied at concrete strings, with
the non-empty token set hypothesis discharged at "curso". -/
theorem claim_C8_witness :
    jaccard "curso" "taller de corte" = jaccard "taller de corte" "curso" ∧
    0 ≤ jaccard "curso" "taller de corte" ∧
    jaccard "curso" "taller de corte" ≤ 1 ∧
    jaccard "curso" "curso" = 1 := by
  have h1 := claim_C8_similarity "curso" "taller de corte"
  have h2 := claim_C8_similarity "curso" "curso"
  exact ⟨h1.1, h1.2.1, h1.2.2.1, h2.2.2.2 (by decide)⟩

theorem stepTurn_history (serLen : List Course → Nat) (cursos : List Course)
    (st : ConvState) (body : String) (outcome : BackendOutcome)
    (hlen : st.history.length ≤ 6) :
    (stepTurn serLen cursos st body outcome).2.history =
      jsLastN 6 (st.history ++ stepEntries serLen cursos st body outcome) := by
  unfold stepTurn stepEntries
  by_cases hne : jsTrimStr body = ""
  · rw [if_pos hne, if_pos hne, List.append_nil, jsLastN_of_length_le hlen]
  · rw [if_neg hne, if_neg hne]
    unfold hardRules
    rcases hfind : List.find? (closedMention (jsTrimStr body)) cursos with - | c
    · by_cases hq : (followUpRE (jsTrimStr body) && hasFormLink st) = true
      · rw [hq]
        simp only [if_true]
        rcases hl : st.lastSuggestedCourse with - | lc
        · cases outcome with
          | ok raw => rfl
          | err => rw [List.append_nil, jsLastN_of_length_le hlen]
        · exact (jsLastN_append_left 6
            (st.history ++ [userEntry (jsTrimStr body)])
            [⟨"assistant", clamp ("Formulario de inscripción: " ++ lc.formulario)⟩]).trans
            (congrArg (jsLastN 6) (List.append_assoc _ _ _))
      · rw [Bool.not_eq_true] at hq
        rw [hq]
        simp only [Bool.false_eq_true, if_false]
        cases outcome with
        | ok raw => rfl
        | err => rw [List.append_nil, jsLastN_of_length_le hlen]
    · rfl

theorem runTurns_history (serLen : List Course → Nat) (cursos : List Course) :
    ∀ (ts : List (String × BackendOutcome)) (st : ConvState),
      st.history.length ≤ 6 →
      (runTurns serLen cursos st ts).history =
        jsLastN 6 (st.history ++ runLog serLen cursos st ts)
  | [], st, h => by
    simp only [runTurns, runLog, List.append_nil]
    rw [jsLastN_of_length_le h]
  | t :: ts, st, h => by
    simp only [runTurns, runLog]
    have hstep := stepTurn_history serLen cursos st t.1 t.2 h
    have hlen2 : (stepTurn serLen cursos st t.1 t.2).2.history.length ≤ 6 := by
      rw [hstep]; exact jsLastN_length_le _ _
    rw [runTurns_history serLen cursos ts _ hlen2, hstep, jsLastN_append_left,
      List.append_assoc]

theorem hasFormLink_elim {st : ConvState} (h : hasFormLink st = true) :
    ∃ lc, st.lastSuggestedCourse = some lc ∧ lc.formulario ≠ "" := by
  rcases hl : st.lastSuggestedCourse with - | lc
  · unfold hasFormLink at h
    rw [hl] at h
    exact absurd h Bool.false_ne_true
  · refine ⟨lc, rfl, ?_⟩
    unfold hasFormLink at h
    rw [hl] at h
    exact bne_iff_ne.mp h

theorem stepTurn_last_of_quickCond {serLen : List Course → Nat}
    {cursos : List Course} {st : ConvState} {body : String}
    (outcome : BackendOutcome)
    (hne : jsTrimStr body ≠ "")
    (hfind : List.find? (closedMention (jsTrimStr body)) cursos = none)
    (hq : (followUpRE (jsTrimStr body) && hasFormLink st) = true) :
    (stepTurn serLen cursos st body outcome).2.lastSuggestedCourse
      = st.lastSuggestedCourse := by
  rw [Bool.and_eq_true] at hq
  obtain ⟨lc, hl, hform⟩ := hasFormLink_elim hq.2
  rw [stepTurn_of_quick hne hfind hq.1 hl hform outcome]

/-- C6: across any run of a conversation from its fresh state, through
every reply path, the history is exactly the at most 6 most recent
appended entries (the oldest dropped first), so its length never
exceeds 6. -/
theorem claim_C6_history_bound (serLen : List Course → Nat)
    (cursos : List Course) (ts : List (String × BackendOutcome)) :
    (runTurns serLen cursos initialState ts).history =
      jsLastN 6 (runLog serLen cursos initialState ts) ∧
    (runTurns serLen cursos initialState ts).history.length ≤ 6 := by
  have h := runTurns_history serLen cursos ts initialState (by decide)
  rw [show initialState.history = [] from rfl, List.nil_append] at h
  exact ⟨h, by rw [h]; exact jsLastN_length_le _ _⟩

/-- C9: the lastSuggestedCourse slot is overwritten exactly when a
successful generative reply contains the Google-Forms registration
anchor — with the URL and the optional strong title captured from the
raw backend output before any rewriting, the title possibly empty —
and is left unchanged by every other path: ignored body, closed-state
template, link shortcut, backend error, and a generative reply without
the anchor. -/
theorem claim_C9_lastSuggested_frame (serLen : List Course → Nat)
    (cursos : List Course) (st : ConvState) (body : String)
    (outcome : BackendOutcome) :
    (jsTrimStr body = "" →
      (stepTurn serLen cursos st body outcome).2.lastSuggestedCourse
        = st.lastSuggestedCourse) ∧
    (∀ c, List.find? (closedMention (jsTrimStr body)) cursos = some c →
      (stepTurn serLen cursos st body outcome).2.lastSuggestedCourse
        = st.lastSuggestedCourse) ∧
    ((followUpRE (jsTrimStr body) && hasFormLink st) = true →
      (stepTurn serLen cursos st body outcome).2.lastSuggestedCourse
        = st.lastSuggestedCourse) ∧
    (outcome = BackendOutcome.err →
      (stepTurn serLen cursos st body outcome).2.lastSuggestedCourse
        = st.lastSuggestedCourse) ∧
    (∀ raw, outcome = BackendOutcome.ok raw →
      jsTrimStr body ≠ "" →
      List.find? (closedMention (jsTrimStr body)) cursos = none →
      (followUpRE (jsTrimStr body) && hasFormLink st) = false →
      ((findFirstAnchor (jsTrimStr raw).data = none →
         (stepTurn serLen cursos st body outcome).2.lastSuggestedCourse
           = st.lastSuggestedCourse) ∧
       (∀ u, findFirstAnchor (jsTrimStr raw).data = some u →
         (stepTurn serLen cursos st body outcome).2.lastSuggestedCourse
           = some ⟨extractedTitle (jsTrimStr raw), jsTrimStr ⟨u⟩⟩))) := by
  refine ⟨?_, ?_, ?_, ?_, ?_⟩
  · intro h
    unfold stepTurn
    rw [if_pos h]
  · intro c hfind
    by_cases hne : jsTrimStr body = ""
    · unfold stepTurn
      rw [if_pos hne]
    · rw [stepTurn_of_closed hne hfind outcome]
  · intro hq
    by_cases hne : jsTrimStr body = ""
    · unfold stepTurn
      rw [if_pos hne]
    · rcases hfind : List.find? (closedMention (jsTrimStr body)) cursos with - | c
      · exact stepTurn_last_of_quickCond outcome hne hfind hq
      · rw [stepTurn_of_closed hne hfind outcome]
  · intro he
    subst he
    by_cases hne : jsTrimStr body = ""
    · unfold stepTurn
      rw [if_pos hne]
    · rcases hfind : List.find? (closedMention (jsTrimStr body)) cursos with - | c
      · by_cases hq : (followUpRE (jsTrimStr body) && hasFormLink st) = true
        · exact stepTurn_last_of_quickCond BackendOutcome.err hne hfind hq
        · rw [Bool.not_eq_true] at hq
          rw [stepTurn_of_gen_err hne hfind hq]
      · rw [stepTurn_of_closed hne hfind BackendOutcome.err]
  · intro raw he hne hfind hnoquick
    subst he
    rw [stepTurn_of_gen_ok hne hfind hnoquick]
    constructor
    · intro hnone
      show (match findFirstAnchor (jsTrimStr raw).data with
        | some u => some (⟨extractedTitle (jsTrimStr raw), jsTrimStr ⟨u⟩⟩ : LastCourse)
        | none => st.lastSuggestedCourse) = st.lastSuggestedCourse
      rw [hnone]
    · intro u hu
      show (match findFirstAnchor (jsTrimStr raw).data with
        | some u => some (⟨extractedTitle (jsTrimStr raw), jsTrimStr ⟨u⟩⟩ : LastCourse)
        | none => st.lastSuggestedCourse)
        = some ⟨extractedTitle (jsTrimStr raw), jsTrimStr ⟨u⟩⟩
      rw [hu]

theorem isEligible_states {c : Course} (h : isEligible c = true) :
    jsToLowerStr (if c.estado = "" then "proximo" else c.estado)
        = "inscripcion_abierta" ∨
    jsToLowerStr (if c.estado = "" then "proximo" else c.estado)
        = "proximo" ∨
    jsToLowerStr (if c.estado = "" then "proximo" else c.estado)
        = "ultimos_cupos" := by
  unfold isEligible ELIGIBLE_STATES at h
  simpa using h

theorem eligible_not_closed {c : Course} (h : isEligible c = true) :
    c.estado ≠ "en_curso" ∧ c.estado ≠ "finalizado" ∧ c.estado ≠ "cupo_completo" := by
  have hd := isEligible_states h
  refine ⟨?_, ?_, ?_⟩ <;> intro he <;> rw [he] at hd <;> revert hd <;> decide

/-- C1: every course serialized into the grounding payload and every
top-3 candidate hint is drawn from the eligible subset: its effective
state lowercases into the eligible enumeration (inscripcion_abierta,
proximo, ultimos_cupos), and a course in a closed state (en_curso,
finalizado, cupo_completo) never appears in either, structurally. -/
theorem claim_C1_eligible_grounding (serLen : List Course → Nat)
    (cursos : List Course) (st : ConvState) (msg : String) :
    (∀ c ∈ (mkPayload serLen cursos st msg).contexto,
      isEligible c = true ∧
      (jsToLowerStr (if c.estado = "" then "proximo" else c.estado)
          = "inscripcion_abierta" ∨
       jsToLowerStr (if c.estado = "" then "proximo" else c.estado)
          = "proximo" ∨
       jsToLowerStr (if c.estado = "" then "proximo" else c.estado)
          = "ultimos_cupos") ∧
      c.estado ≠ "en_curso" ∧ c.estado ≠ "finalizado" ∧
      c.estado ≠ "cupo_completo") ∧
    (∀ cand ∈ (mkPayload serLen cursos st msg).hint,
      ∃ c ∈ cursos, isEligible c = true ∧
        cand.id = c.id ∧ cand.titulo = c.titulo ∧
        c.estado ≠ "en_curso" ∧ c.estado ≠ "finalizado" ∧
        c.estado ≠ "cupo_completo") := by
  constructor
  · intro c hc
    have hc' : c ∈ contextoCursosList serLen cursos := hc
    have hex : c ∈ cursosExhibibles cursos := by
      have hc'' : c ∈ (if serLen (cursosExhibibles cursos) > MAX_CONTEXT_CHARS
          then List.take 40 (cursosExhibibles cursos)
          else cursosExhibibles cursos) := hc'
      split at hc''
      · exact List.take_subset _ _ hc''
      · exact hc''
    rw [cursosExhibibles, List.mem_filter] at hex
    exact ⟨hex.2, isEligible_states hex.2, eligible_not_closed hex.2⟩
  · intro cand hcand
    have hc' : cand ∈ (sortByScoreDesc ((cursosExhibibles cursos).map
        (fun c => ⟨c.id, c.titulo, jaccard c.titulo (normalizeStr msg)⟩))).take 3 :=
      hcand
    have h2 := List.take_subset _ _ hc'
    rw [mem_sortByScoreDesc, List.mem_map] at h2
    obtain ⟨c, hcex, rfl⟩ := h2
    rw [cursosExhibibles, List.mem_filter] at hcex
    exact ⟨c, hcex.1, hcex.2, rfl, rfl, eligible_not_closed hcex.2⟩

/-- C1 witness: over a catalog with one open and one finalized course,
the open course is the candidate source of the hint and sits in the
serialized context with an eligible, non-closed state. -/
theorem claim_C1_witness :
    (∃ c ∈ [(⟨1, "Panadería", "https://forms.gle/xyz", "inscripcion_abierta"⟩ : Course),
            ⟨2, "Soldadura", "", "finalizado"⟩],
       isEligible c = true ∧
       (⟨1, "Panadería", 0⟩ : Candidate).id = c.id ∧
       (⟨1, "Panadería", 0⟩ : Candidate).titulo = c.titulo ∧
       c.estado ≠ "en_curso" ∧ c.estado ≠ "finalizado" ∧
       c.estado ≠ "cupo_completo") ∧
    isEligible ⟨1, "Panadería", "https://forms.gle/xyz", "inscripcion_abierta"⟩
      = true ∧
    (⟨1, "Panadería", "https://forms.gle/xyz", "inscripcion_abierta"⟩ : Course).estado
      ≠ "finalizado" := by
  refine ⟨(claim_C1_eligible_grounding (fun _ => 0)
      [⟨1, "Panadería", "https://forms.gle/xyz", "inscripcion_abierta"⟩,
       ⟨2, "Soldadura", "", "finalizado"⟩] initialState "hola").2
      ⟨1, "Panadería", 0⟩ (by decide), ?_, ?_⟩
  · exact ((claim_C1_eligible_grounding (fun _ => 0)
      [⟨1, "Panadería", "https://forms.gle/xyz", "inscripcion_abierta"⟩,
       ⟨2, "Soldadura", "", "finalizado"⟩] initialState "hola").1
      ⟨1, "Panadería", "https://forms.gle/xyz", "inscripcion_abierta"⟩
      (by decide)).1
  · exact ((claim_C1_eligible_grounding (fun _ => 0)
      [⟨1, "Panadería", "https://forms.gle/xyz", "inscripcion_abierta"⟩,
       ⟨2, "Soldadura", "", "finalizado"⟩] initialState "hola").1
      ⟨1, "Panadería", "https://forms.gle/xyz", "inscripcion_abierta"⟩
      (by decide)).2.2.2.1

/-- C9 witness: a backend error leaves the stored course untouched, and
a generative reply carrying the Google-Forms anchor overwrites it with
the captured URL and an empty title when no strong tag is present. -/
theorem claim_C9_witness :
    (stepTurn (fun _ => 0) []
      ⟨[], some ⟨"Panadería", "https://forms.gle/xyz"⟩⟩
      "hola" BackendOutcome.err).2.lastSuggestedCourse
      = some ⟨"Panadería", "https://forms.gle/xyz"⟩ ∧
    (stepTurn (fun _ => 0) [] initialState "hola"
      (BackendOutcome.ok "Te podés inscribir acá: <a href=\"https://forms.gle/abc\">inscribirte</a>")).2.lastSuggestedCourse
      = some ⟨"", "https://forms.gle/abc"⟩ := by
  constructor
  · exact (claim_C9_lastSuggested_frame (fun _ => 0) []
      ⟨[], some ⟨"Panadería", "https://forms.gle/xyz"⟩⟩ "hola"
      BackendOutcome.err).2.2.2.1 rfl
  · have h := ((claim_C9_lastSuggested_frame (fun _ => 0) [] initialState "hola"
      (BackendOutcome.ok "Te podés inscribir acá: <a href=\"https://forms.gle/abc\">inscribirte</a>")).2.2.2.2
      "Te podés inscribir acá: <a href=\"https://forms.gle/abc\">inscribirte</a>"
      rfl (by decide) rfl (by decide)).2
      "https://forms.gle/abc".data (by decide)
    exact h.trans (by decide)

end CamiBot
